import Mathlib

/-!
Verification of the channel-scraper core in src/main.py against its
specification.  The Python code is shallowly embedded: JSON payloads become a
tagged tree type, the recursive walker, the text resolver, the item normalizer,
the page extractor and the pagination loop are translated function by function,
with the network boundary (requests session, _browse_req, the initial page
fetch) abstracted as explicit function parameters.  Line numbers in comments
refer to src/main.py.
-/

/-- A JSON value, as the duck-typed dict/list/str values the Python code walks.
Objects keep field order (Python dicts preserve insertion order); numeric,
boolean and null leaves never contribute to any extraction in main.py, so a
single non-string leaf constructor `null` stands for all of them. -/
inductive Json where
  | str : String → Json
  | obj : List (String × Json) → Json
  | arr : List Json → Json
  | null : Json

/-- First binding of a key in an object's field list (Python dict lookup;
keys of a Python dict are unique, so first-match lookup is faithful). -/
def lookupField : List (String × Json) → String → Option Json
  | [], _ => none
  | (k, v) :: rest, key => if k = key then some v else lookupField rest key

/-- `d[k]` / `d.get(k)`: `none` both when the key is absent and when `d` is not
a dict (the Python code only indexes values it has key-checked). -/
def jget : Json → String → Option Json
  | Json.obj fs, k => lookupField fs k
  | _, _ => none

/-- The string content of a JSON value.  Python would hand a non-string value
on unchanged; every field the claims exercise carries a string, and a
non-string is mapped to `""`. -/
def jstr : Json → String
  | Json.str s => s
  | _ => ""

def isObj : Json → Bool
  | Json.obj _ => true
  | _ => false

/-- Truthiness of the Python `video_id` / token variables: `None` and the empty
string are falsy. -/
def pyTruthy : Option String → Bool
  | none => false
  | some s => s ≠ ""

mutual
/-- `_walk` (lines 49-56): depth-first generator yielding every (key, value)
pair of a JSON tree; array elements are recursed into without yielding a pair,
scalars yield nothing. -/
def walk : Json → List (String × Json)
  | Json.str _ => []
  | Json.null => []
  | Json.obj fs => walkFields fs
  | Json.arr xs => walkElems xs

/-- The dict branch of `_walk`: for each field yield the pair, then recurse. -/
def walkFields : List (String × Json) → List (String × Json)
  | [] => []
  | (k, v) :: rest => (k, v) :: (walk v ++ walkFields rest)

/-- The list branch of `_walk`: recurse into each element in order. -/
def walkElems : List Json → List (String × Json)
  | [] => []
  | x :: rest => walk x ++ walkElems rest
end

/-- One element of a `runs` array: `r.get("text", "")` (line 62). -/
def runText : Json → String
  | Json.obj fs =>
    match lookupField fs "text" with
    | some v => jstr v
    | none => ""
  | _ => ""

/-- `_pick_text` (lines 58-63).  Check order as in the source: `simpleText`,
then `content`, then `runs`; a non-dict input yields `""`.  A `runs` value
that is not a list would raise in Python (never produced by the platform);
it is mapped to `""` here. -/
def pick_text (t : Json) : String :=
  match t with
  | Json.obj fs =>
    match lookupField fs "simpleText" with
    | some v => jstr v
    | none =>
      match lookupField fs "content" with
      | some v => jstr v
      | none =>
        match lookupField fs "runs" with
        | some (Json.arr rs) => String.join (rs.map runText)
        | some _ => ""
        | none => ""
  | _ => ""

/-- Modelled from the spec: the Text Resolver check order as §4.1 and C6 state
it — plain-string field first, then runs-array concatenation, then generic
content field.  Written only to be compared with `pick_text`, which follows
the source's actual order. -/
def pickTextSpecOrder (t : Json) : String :=
  match t with
  | Json.obj fs =>
    match lookupField fs "simpleText" with
    | some v => jstr v
    | none =>
      match lookupField fs "runs" with
      | some (Json.arr rs) => String.join (rs.map runText)
      | some _ => ""
      | none =>
        match lookupField fs "content" with
        | some v => jstr v
        | none => ""
  | _ => ""

def YOUTUBE_ROOT : String := "https://www.youtube.com"

/-- The record `_parse_item` returns (lines 133-139). -/
structure ParsedItem where
  id_interno : String
  url : String
  title : String
  description : String
  thumbnail : String
deriving DecidableEq, Repr

/-- The tail of `_parse_item` (lines 125-139): drop the record when the id is
falsy, otherwise build the dict with the tab-dependent route. -/
def finishItem (is_short : Bool) (video_id : Option String)
    (title thumb desc : String) : Option ParsedItem :=
  match video_id with
  | none => none
  | some vid =>
    if vid = "" then none
    else
      let url := if is_short then YOUTUBE_ROOT ++ "/shorts/" ++ vid
                 else YOUTUBE_ROOT ++ "/watch?v=" ++ vid
      some { id_interno := vid, url := url, title := title,
             description := desc, thumbnail := thumb }

/-- `thumbs[-1].get("url", "")` guarded by `if thumbs:` (lines 99, 114). -/
def lastThumbUrl (l : List Json) : String :=
  match l.getLast? with
  | some t => jstr ((jget t "url").getD (Json.str ""))
  | none => ""

/-- `thumbs[0].get("url", "")` guarded by `if thumbs:` (line 123). -/
def headThumbUrl (l : List Json) : String :=
  match l.head? with
  | some t => jstr ((jget t "url").getD (Json.str ""))
  | none => ""

/-- Title of the direct-field branch (line 96):
`_pick_text(data.get("title", {})) or _pick_text(data.get("headline", {}))`. -/
def directTitle (data : Json) : String :=
  let t := pick_text ((jget data "title").getD (Json.obj []))
  if t = "" then pick_text ((jget data "headline").getD (Json.obj [])) else t

/-- Thumbnail of the direct-field branch (lines 97-99): last entry of
`data["thumbnail"]["thumbnails"]`.  A non-list `thumbnails` value would raise
in Python at `thumbs[-1]`; mapped to `""`. -/
def directThumb (data : Json) : String :=
  match jget data "thumbnail" with
  | some tj =>
    match (jget tj "thumbnails").getD (Json.arr []) with
    | Json.arr ts => lastThumbUrl ts
    | _ => ""
  | none => ""

/-- Description of the direct-field branch (lines 100-101). -/
def directDesc (data : Json) : String :=
  match jget data "descriptionSnippet" with
  | some d => pick_text d
  | none => ""

/-- The `videoId` branch of `_parse_item` (lines 94-101). -/
def directStrategy (data : Json) (is_short : Bool) : Option ParsedItem :=
  finishItem is_short ((jget data "videoId").map jstr)
    (directTitle data) (directThumb data) (directDesc data)

/-- The id scan of the `onTap` branch (lines 104-108): first pair of the walk
of the on-tap subtree whose key is a watch/reel endpoint and whose value has a
`videoId` key; `break` on that first hit. -/
def clickIdOf (data : Json) : Option String :=
  match jget data "onTap" with
  | some cmd =>
    match (walk cmd).find? (fun kv =>
        (kv.1 = "reelWatchEndpoint" || kv.1 = "watchEndpoint")
          && (jget kv.2 "videoId").isSome) with
    | some kv => some (jstr ((jget kv.2 "videoId").getD (Json.str "")))
    | none => none
  | none => none

/-- Title of the `onTap` branch (lines 110-111). -/
def clickTitle (data : Json) : String :=
  match jget data "overlayMetadata" with
  | some om => pick_text ((jget om "primaryText").getD (Json.obj []))
  | none => ""

/-- Thumbnail of the `onTap` branch (lines 112-114): last entry of
`data["thumbnail"]["sources"]`. -/
def clickThumb (data : Json) : String :=
  match jget data "thumbnail" with
  | some tj =>
    match (jget tj "sources").getD (Json.arr []) with
    | Json.arr ts => lastThumbUrl ts
    | _ => ""
  | none => ""

/-- The `onTap` branch of `_parse_item` (lines 103-114): title and thumbnail
are only read when the scanned id is truthy; a falsy id falls through to
`return None`. -/
def clickStrategy (data : Json) (is_short : Bool) : Option ParsedItem :=
  let vid := clickIdOf data
  if pyTruthy vid then
    finishItem is_short vid (clickTitle data) (clickThumb data) ""
  else none

/-- Thumbnail of the `navigationEndpoint` branch (lines 121-123): first entry
of `data.get("thumbnail", {}).get("thumbnails", [])`. -/
def navThumb (data : Json) : String :=
  match (jget ((jget data "thumbnail").getD (Json.obj [])) "thumbnails").getD
      (Json.arr []) with
  | Json.arr ts => headThumbUrl ts
  | _ => ""

/-- The `navigationEndpoint` branch of `_parse_item` (lines 116-123). -/
def navStrategy (data : Json) (is_short : Bool) : Option ParsedItem :=
  match jget data "navigationEndpoint" with
  | some nav =>
    match jget nav "reelWatchEndpoint" with
    | some rw =>
      finishItem is_short ((jget rw "videoId").map jstr)
        (pick_text ((jget data "headline").getD (Json.obj [])))
        (navThumb data) ""
    | none => none
  | none => none

/-- `_parse_item` (lines 86-139): the three strategies tried as an
if/elif/elif chain keyed on key presence. -/
def parse_item (data : Json) (is_short : Bool) : Option ParsedItem :=
  if (jget data "videoId").isSome then directStrategy data is_short
  else if (jget data "onTap").isSome then clickStrategy data is_short
  else if (jget data "navigationEndpoint").isSome then navStrategy data is_short
  else none

/-- The recognized structural kinds (line 144). -/
def targetKeys : List String :=
  ["gridVideoRenderer", "videoRenderer", "reelItemRenderer", "shortsLockupViewModel"]

/-- The token inside a `continuationItemRenderer` node (line 154):
`v.get("continuationEndpoint", {}).get("continuationCommand", {}).get("token")`. -/
def cirToken (v : Json) : Option String :=
  (jget ((jget ((jget v "continuationEndpoint").getD (Json.obj []))
      "continuationCommand").getD (Json.obj [])) "token").map jstr

/-- The first scan of the token discovery (lines 152-157): first
`continuationItemRenderer` pair of the walk whose embedded token is truthy. -/
def findTokenCIR : List (String × Json) → Option String
  | [] => none
  | (k, v) :: rest =>
    if k = "continuationItemRenderer" then
      match cirToken v with
      | some t => if t = "" then findTokenCIR rest else some t
      | none => findTokenCIR rest
    else findTokenCIR rest

/-- The fallback scan (lines 158-162): first `continuationCommand` pair of the
walk carrying a truthy `token`. -/
def findTokenCC : List (String × Json) → Option String
  | [] => none
  | (k, v) :: rest =>
    if k = "continuationCommand" && pyTruthy ((jget v "token").map jstr) then
      (jget v "token").map jstr
    else findTokenCC rest

/-- Token discovery of `_extract_from_data` (lines 152-162): the placeholder
scan first, the bare-command scan only when it found nothing. -/
def extractContinuation (data : Json) : Option String :=
  match findTokenCIR (walk data) with
  | some t => some t
  | none => findTokenCC (walk data)

/-- `_extract_from_data` (lines 141-164): walk once for items (each recognized
structural kind routed through `_parse_item`, with the shorts flag forced for
the two shorts-only kinds), walk again for the continuation token. -/
def extract_from_data (data : Json) (is_short_tab : Bool) :
    List ParsedItem × Option String :=
  let items := (walk data).filterMap (fun kv =>
    if targetKeys.contains kv.1 && isObj kv.2 then
      parse_item kv.2
        (is_short_tab || kv.1 = "reelItemRenderer" || kv.1 = "shortsLockupViewModel")
    else none)
  (items, extractContinuation data)

/-- `max_items and len(items) >= max_items` (lines 224, 244): Python truthiness
makes both `None` and `0` disable the cap. -/
def capReached : Option Nat → Nat → Prop
  | none, _ => False
  | some k, n => k ≠ 0 ∧ k ≤ n

instance (m : Option Nat) (n : Nat) : Decidable (capReached m n) :=
  match m with
  | none => isFalse (fun h => h)
  | some _ => inferInstanceAs (Decidable (_ ∧ _))

/-- `not new_cont or new_cont == continuation` (line 246): the loop stops when
the freshly extracted token is falsy (absent or empty) or repeats the token
just consumed. -/
def tokStops (newCont : Option String) (tok : String) : Prop :=
  newCont = none ∨ newCont = some "" ∨ newCont = some tok

instance (newCont : Option String) (tok : String) : Decidable (tokStops newCont tok) :=
  inferInstanceAs (Decidable (_ ∨ _ ∨ _))

/-- The description-enrichment hook (lines 214-219, 237-241): when the flag is
set, `_fetch_full_description_text` — abstracted as `fd` — is consulted and a
non-empty result overwrites the snippet description. -/
def enrichDesc (fullDesc : Bool) (fd : String → String) (i : ParsedItem) : ParsedItem :=
  if fullDesc then
    let d := fd i.id_interno
    if d ≠ "" then { i with description := d } else i
  else i

/-- One run of the per-page dedup `for` loop (lines 209-221 with
`maxItems := none`, lines 232-244 with the tab's cap): returns the new seen
set, the new accumulated items, and — as a ghost trace used only by the
specification — the list of records the loop actually iterated over.
The source appends each kept record with `id_interno` already stripped; here
the full record is kept and the stripping (`publicDict`) is applied at the
end of `scrape_tab`, which yields the same output. -/
def addPage (maxItems : Option Nat) (fullDesc : Bool) (fd : String → String) :
    List String → List ParsedItem → List ParsedItem →
    List String × List ParsedItem × List ParsedItem
  | seen, items, [] => (seen, items, [])
  | seen, items, i :: rest =>
    if i.id_interno ∈ seen then
      let r := addPage maxItems fullDesc fd seen items rest
      (r.1, r.2.1, i :: r.2.2)
    else
      let items2 := items ++ [enrichDesc fullDesc fd i]
      if capReached maxItems items2.length then
        (i.id_interno :: seen, items2, [i])
      else
        let r := addPage maxItems fullDesc fd (i.id_interno :: seen) items2 rest
        (r.1, r.2.1, i :: r.2.2)

/-- The `while continuation:` loop of `scrape_tab` (lines 223-247).  `pages`
composes `_browse_req` with `_extract_from_data` (what one iteration learns
from a token); `fuel` bounds the number of iterations modelled — the source
loop has no iteration ceiling of its own.  Returns the accumulated items and
the ghost trace of all records iterated. -/
def crawlGo (pages : String → List ParsedItem × Option String) (maxItems : Option Nat)
    (fullDesc : Bool) (fd : String → String) :
    Nat → List String → List ParsedItem → Option String →
    List ParsedItem × List ParsedItem
  | 0, _, items, _ => (items, [])
  | _ + 1, _, items, none => (items, [])
  | fuel + 1, seen, items, some tok =>
    if tok = "" then (items, [])
    else if capReached maxItems items.length then (items, [])
    else
      let pr := pages tok
      if pr.1 = [] then (items, [])
      else
        let ap := addPage maxItems fullDesc fd seen items pr.1
        if tokStops pr.2 tok then (ap.2.1, ap.2.2)
        else
          let rc := crawlGo pages maxItems fullDesc fd fuel ap.1 ap.2.1 pr.2
          (rc.1, ap.2.2 ++ rc.2)

/-- The body of `scrape_tab` (lines 195-247) with the network abstracted:
`initData` is the parsed `ytInitialData` of the tab page (`none` models the
`except: return []` of lines 200-202 — missing client keys or initial data),
`browse` maps a continuation token to the JSON `_browse_req` returns (an empty
object on transport failure).  Returns the accumulated items before the final
truncation, and the ghost trace. -/
def scrape_tabCrawl (initData : Option Json) (browse : String → Json) (tab : String)
    (maxItems : Option Nat) (fullDesc : Bool) (fd : String → String) (fuel : Nat) :
    List ParsedItem × List ParsedItem :=
  match initData with
  | none => ([], [])
  | some initial =>
    let isShortTab : Bool := tab == "shorts"
    let p := extract_from_data initial isShortTab
    let a := addPage none fullDesc fd [] [] p.1
    let c := crawlGo (fun t => extract_from_data (browse t) isShortTab)
      maxItems fullDesc fd fuel a.1 a.2.1 p.2
    (c.1, a.2.2 ++ c.2)

/-- `if max_items: items = items[:max_items]` (lines 249-250): by truthiness a
cap of `0` performs no truncation. -/
def truncCap : Option Nat → List ParsedItem → List ParsedItem
  | none, items => items
  | some k, items => if k ≠ 0 then items.take k else items

/-- The item sequence `scrape_tab` returns, before the id-stripping
serialization. -/
def scrape_tabItems (initData : Option Json) (browse : String → Json) (tab : String)
    (maxItems : Option Nat) (fullDesc : Bool) (fd : String → String) (fuel : Nat) :
    List ParsedItem :=
  truncCap maxItems (scrape_tabCrawl initData browse tab maxItems fullDesc fd fuel).1

/-- The ghost trace of records iterated by one run of `scrape_tab`. -/
def scrape_tabTrace (initData : Option Json) (browse : String → Json) (tab : String)
    (maxItems : Option Nat) (fullDesc : Bool) (fd : String → String) (fuel : Nat) :
    List ParsedItem :=
  (scrape_tabCrawl initData browse tab maxItems fullDesc fd fuel).2

/-- The dict literal `_parse_item` builds (lines 133-139), as an ordered
key/value list. -/
def itemAssoc (i : ParsedItem) : List (String × String) :=
  [("id_interno", i.id_interno), ("url", i.url), ("title", i.title),
   ("description", i.description), ("thumbnail", i.thumbnail)]

/-- The id-stripping dict comprehension of lines 221 and 243: every key except
`id_interno` survives. -/
def publicDict (i : ParsedItem) : List (String × String) :=
  (itemAssoc i).filter (fun kv => kv.1 != "id_interno")

/-- `scrape_tab` (lines 190-255): the crawl, the final truncation, and the
per-item id stripping. -/
def scrape_tab (initData : Option Json) (browse : String → Json) (tab : String)
    (maxItems : Option Nat) (fullDesc : Bool) (fd : String → String) (fuel : Nat) :
    List (List (String × String)) :=
  (scrape_tabItems initData browse tab maxItems fullDesc fd fuel).map publicDict

/-- The abstracted network for one tab: the parsed initial page (`none` when
`_extract_innertube` / `_extract_ytinitialdata` raise) and the browse
endpoint. -/
structure TabEnv where
  initData : Option Json
  browse : String → Json

/-- The abstracted network of a whole request. -/
structure ChannelEnv where
  videos : TabEnv
  lives : TabEnv
  shorts : TabEnv
  fetchDesc : String → String

/-- The response of `/scrape` (lines 20-27, 284-292). -/
structure ChannelResponse where
  channel : String
  total_videos : Nat
  total_lives : Nat
  total_shorts : Nat
  videos : List (List (String × String))
  lives : List (List (String × String))
  shorts : List (List (String × String))
deriving DecidableEq, Repr

/-- `channel_url.split("?")[0]` (line 277): the prefix before the first `?`. -/
def stripQuery (s : String) : String :=
  String.mk (s.data.takeWhile (fun c => c ≠ '?'))

/-- `.rstrip("/")` (line 277). -/
def rstripSlashes (s : String) : String :=
  String.mk ((s.data.reverse.dropWhile (fun c => c = '/')).reverse)

/-- `scrape_channel` (lines 263-292): one `scrape_tab` run per tab, response
assembled from the three independent results. -/
def scrape_channel (env : ChannelEnv) (channel_url : String)
    (max_videos max_lives max_shorts : Option Nat) (full_description : Bool)
    (fuel : Nat) : ChannelResponse :=
  let base_url := rstripSlashes (stripQuery channel_url)
  let videos := scrape_tab env.videos.initData env.videos.browse "videos"
    max_videos full_description env.fetchDesc fuel
  let lives := scrape_tab env.lives.initData env.lives.browse "lives"
    max_lives full_description env.fetchDesc fuel
  let shorts := scrape_tab env.shorts.initData env.shorts.browse "shorts"
    max_shorts full_description env.fetchDesc fuel
  { channel := base_url, total_videos := videos.length, total_lives := lives.length,
    total_shorts := shorts.length, videos := videos, lives := lives, shorts := shorts }

/-- Specification-side first-occurrence dedup: keep a record exactly when its
id has not been seen. -/
def firstOccur (seen : List String) : List ParsedItem → List ParsedItem
  | [] => []
  | i :: rest =>
    if i.id_interno ∈ seen then firstOccur seen rest
    else i :: firstOccur (i.id_interno :: seen) rest

/-- Specification-side seen-set accumulation matching `firstOccur`. -/
def seenAfter (seen : List String) : List ParsedItem → List String
  | [] => seen
  | i :: rest =>
    if i.id_interno ∈ seen then seenAfter seen rest
    else seenAfter (i.id_interno :: seen) rest

/-- A pair of the walk on which the placeholder token scan stops: key
`continuationItemRenderer` with a truthy embedded token. -/
def cirHit (kv : String × Json) : Bool :=
  kv.1 = "continuationItemRenderer" && pyTruthy (cirToken kv.2)

/-- A pair of the walk on which the fallback token scan stops: key
`continuationCommand` with a truthy `token` field. -/
def ccHit (kv : String × Json) : Bool :=
  kv.1 = "continuationCommand" && pyTruthy ((jget kv.2 "token").map jstr)

/-- Fixture: a node carrying both a `runs` array and a `content` field. -/
def exC6 : Json :=
  Json.obj [("runs", Json.arr [Json.obj [("text", Json.str "a")]]),
            ("content", Json.str "b")]

/-- Fixture: a record satisfying both the direct-field id condition and the
click-command id condition. -/
def exC4 : Json :=
  Json.obj [("videoId", Json.str "a"),
            ("title", Json.obj [("simpleText", Json.str "direct title")]),
            ("onTap", Json.obj [("watchEndpoint", Json.obj [("videoId", Json.str "b")])]),
            ("overlayMetadata", Json.obj [("primaryText",
              Json.obj [("content", Json.str "click title")])])]

/-- Fixture: a record whose `thumbnail.thumbnails` list has three entries and
which both the direct-field and the navigation-endpoint strategies accept. -/
def exC5 : Json :=
  Json.obj [("videoId", Json.str "v"),
            ("navigationEndpoint", Json.obj [("reelWatchEndpoint",
              Json.obj [("videoId", Json.str "r")])]),
            ("thumbnail", Json.obj [("thumbnails", Json.arr
              [Json.obj [("url", Json.str "u1")],
               Json.obj [("url", Json.str "u2")],
               Json.obj [("url", Json.str "u3")]])])]

/-- Fixture: a record with a direct `videoId`, an `onTap` subtree yielding no
endpoint id, and a resolvable navigation endpoint. -/
def exC10 : Json :=
  Json.obj [("videoId", Json.str "x"),
            ("onTap", Json.obj [("innertubeCommand", Json.str "y")]),
            ("navigationEndpoint", Json.obj [("reelWatchEndpoint",
              Json.obj [("videoId", Json.str "z")])])]

/-- Fixture: a record without `videoId`, with a fruitless `onTap` subtree and a
resolvable navigation endpoint. -/
def exC10w : Json :=
  Json.obj [("onTap", Json.obj [("innertubeCommand", Json.str "y")]),
            ("navigationEndpoint", Json.obj [("reelWatchEndpoint",
              Json.obj [("videoId", Json.str "z")])])]

/-- Fixture: an initial payload with one `videoRenderer` record and no
continuation token. -/
def exC8init : Json :=
  Json.obj [("videoRenderer", Json.obj [("videoId", Json.str "a")])]

/-- Fixture: an initial payload with three `videoRenderer` records in walk
order a, b, c and no continuation token. -/
def exC2init : Json :=
  Json.obj [("c1", Json.obj [("videoRenderer", Json.obj [("videoId", Json.str "a")])]),
            ("c2", Json.obj [("videoRenderer", Json.obj [("videoId", Json.str "b")])]),
            ("c3", Json.obj [("videoRenderer", Json.obj [("videoId", Json.str "c")])])]

/-- Fixture: an initial payload with a single record, used at cap 0. -/
def exC2zInit : Json :=
  Json.obj [("videoRenderer", Json.obj [("videoId", Json.str "zz")])]

/-- Fixture: a page function whose extraction always returns the token it was
given (a non-advancing continuation). -/
def pagesC3 : String → List ParsedItem × Option String :=
  fun t => ([⟨"w", "u", "t", "d", "th"⟩], some t)

/-- Fixture: a channel whose first tab (videos) has an unparsable initial page
while the lives and shorts tabs each carry one record. -/
def envC9 : ChannelEnv :=
  { videos := { initData := none, browse := fun _ => Json.obj [] },
    lives := { initData := some (Json.obj [("videoRenderer",
        Json.obj [("videoId", Json.str "L")])]), browse := fun _ => Json.obj [] },
    shorts := { initData := some (Json.obj [("videoRenderer",
        Json.obj [("videoId", Json.str "S")])]), browse := fun _ => Json.obj [] },
    fetchDesc := fun _ => "" }

/-- Fixture: `envC9` with the videos tab parsable instead; only the videos tab
differs from `envC9`. -/
def envC9b : ChannelEnv :=
  { envC9 with videos := { initData := some (Json.obj [("videoRenderer",
      Json.obj [("videoId", Json.str "V")])]), browse := fun _ => Json.obj [] } }

/-- Fixture: `envC9b` with the lives tab unparsable instead; only the lives
tab differs from `envC9b`. -/
def envC9L : ChannelEnv :=
  { envC9b with lives := { initData := none, browse := fun _ => Json.obj [] } }

/-- Fixture: `envC9b` with the shorts tab unparsable instead; only the shorts
tab differs from `envC9b`. -/
def envC9S : ChannelEnv :=
  { envC9b with shorts := { initData := none, browse := fun _ => Json.obj [] } }

theorem enrichDesc_id (f : Bool) (fd : String → String) (i : ParsedItem) :
    (enrichDesc f fd i).id_interno = i.id_interno := by
  unfold enrichDesc
  split
  · dsimp only
    split <;> rfl
  · rfl

theorem firstOccur_append (a b : List ParsedItem) :
    ∀ seen, firstOccur seen (a ++ b)
      = firstOccur seen a ++ firstOccur (seenAfter seen a) b := by
  induction a with
  | nil => intro seen; simp [firstOccur, seenAfter]
  | cons i rest ih =>
    intro seen
    by_cases h : i.id_interno ∈ seen
    · simp [firstOccur, seenAfter, h, ih]
    · simp [firstOccur, seenAfter, h, ih]

theorem addPage_spec (m : Option Nat) (f : Bool) (fd : String → String)
    (pg : List ParsedItem) : ∀ (seen : List String) (items : List ParsedItem),
      (addPage m f fd seen items pg).1
        = seenAfter seen (addPage m f fd seen items pg).2.2
      ∧ (addPage m f fd seen items pg).2.1
        = items ++ (firstOccur seen (addPage m f fd seen items pg).2.2).map (enrichDesc f fd) := by
  induction pg with
  | nil => intro seen items; simp [addPage, seenAfter, firstOccur]
  | cons i rest ih =>
    intro seen items
    by_cases h : i.id_interno ∈ seen
    · rcases hR : addPage m f fd seen items rest with ⟨s2, its2, tr⟩
      have hr := ih seen items
      rw [hR] at hr
      dsimp only at hr
      simp [addPage, h, hR, firstOccur, seenAfter, hr.1, hr.2]
    · by_cases hcap : capReached m (items.length + 1)
      · simp [addPage, h, hcap, firstOccur, seenAfter]
      · rcases hR : addPage m f fd (i.id_interno :: seen) (items ++ [enrichDesc f fd i]) rest
          with ⟨s2, its2, tr⟩
        have hr := ih (i.id_interno :: seen) (items ++ [enrichDesc f fd i])
        rw [hR] at hr
        dsimp only at hr
        simp [addPage, h, hcap, hR, firstOccur, seenAfter, hr.1, hr.2, List.append_assoc]

theorem crawlGo_spec (pages : String → List ParsedItem × Option String)
    (m : Option Nat) (f : Bool) (fd : String → String) :
    ∀ (fuel : Nat) (seen : List String) (items : List ParsedItem) (cont : Option String),
      (crawlGo pages m f fd fuel seen items cont).1
        = items ++ (firstOccur seen (crawlGo pages m f fd fuel seen items cont).2).map (enrichDesc f fd) := by
  intro fuel
  induction fuel with
  | zero => intro seen items cont; simp [crawlGo, firstOccur]
  | succ n ih =>
    intro seen items cont
    cases cont with
    | none => simp [crawlGo, firstOccur]
    | some tok =>
      by_cases h1 : tok = ""
      · simp [crawlGo, h1, firstOccur]
      · by_cases h2 : capReached m items.length
        · simp [crawlGo, h1, h2, firstOccur]
        · by_cases h3 : (pages tok).1 = []
          · simp [crawlGo, h1, h2, h3, firstOccur]
          · rcases hAP : addPage m f fd seen items (pages tok).1 with ⟨s2, its2, tr1⟩
            have ha := addPage_spec m f fd (pages tok).1 seen items
            rw [hAP] at ha
            dsimp only at ha
            by_cases h4 : tokStops (pages tok).2 tok
            · simp [crawlGo, h1, h2, h3, h4, hAP, ha.2]
            · rcases hRC : crawlGo pages m f fd n s2 its2 (pages tok).2 with ⟨kept, tr2⟩
              have hr := ih s2 its2 (pages tok).2
              rw [hRC] at hr
              dsimp only at hr
              simp [crawlGo, h1, h2, h3, h4, hAP, hRC]
              simp [hr, ha.2, ha.1, firstOccur_append, List.map_append, List.append_assoc]

theorem scrape_tabCrawl_spec (initData : Option Json) (browse : String → Json)
    (tab : String) (m : Option Nat) (f : Bool) (fd : String → String) (fuel : Nat) :
    (scrape_tabCrawl initData browse tab m f fd fuel).1
      = (firstOccur [] (scrape_tabCrawl initData browse tab m f fd fuel).2).map (enrichDesc f fd) := by
  cases initData with
  | none => simp [scrape_tabCrawl, firstOccur]
  | some ini =>
    rcases hAP : addPage none f fd [] [] (extract_from_data ini (tab == "shorts")).1
      with ⟨s2, its2, tr1⟩
    have ha := addPage_spec none f fd (extract_from_data ini (tab == "shorts")).1 [] []
    rw [hAP] at ha
    dsimp only at ha
    rcases hRC : crawlGo (fun t => extract_from_data (browse t) (tab == "shorts")) m f fd fuel
        s2 its2 (extract_from_data ini (tab == "shorts")).2 with ⟨kept, tr2⟩
    have hc := crawlGo_spec (fun t => extract_from_data (browse t) (tab == "shorts")) m f fd fuel
        s2 its2 (extract_from_data ini (tab == "shorts")).2
    rw [hRC] at hc
    dsimp only at hc
    simp [scrape_tabCrawl, hAP, hRC]
    simp [hc, ha.1, ha.2, firstOccur_append, List.map_append]

theorem firstOccur_mem (l : List ParsedItem) :
    ∀ (seen : List String) (x : ParsedItem), x ∈ firstOccur seen l → x.id_interno ∉ seen := by
  induction l with
  | nil => intro seen x hx; simp [firstOccur] at hx
  | cons i rest ih =>
    intro seen x hx
    by_cases h : i.id_interno ∈ seen
    · simp only [firstOccur, if_pos h] at hx
      exact ih seen x hx
    · simp only [firstOccur, if_neg h, List.mem_cons] at hx
      rcases hx with rfl | hx
      · exact h
      · intro hmem
        exact ih (i.id_interno :: seen) x hx (List.mem_cons_of_mem _ hmem)

theorem firstOccur_pairwise (l : List ParsedItem) :
    ∀ seen, (firstOccur seen l).Pairwise (fun a b => a.id_interno ≠ b.id_interno) := by
  induction l with
  | nil => intro seen; simp [firstOccur]
  | cons i rest ih =>
    intro seen
    by_cases h : i.id_interno ∈ seen
    · simpa [firstOccur, h] using ih seen
    · simp only [firstOccur, if_neg h]
      refine List.Pairwise.cons ?_ (ih _)
      intro b hb heq
      have hnot := firstOccur_mem rest (i.id_interno :: seen) b hb
      exact hnot (by rw [← heq]; exact List.mem_cons_self _ _)

theorem pairwise_ids_map_enrich (f : Bool) (fd : String → String) (l : List ParsedItem)
    (h : l.Pairwise (fun a b => a.id_interno ≠ b.id_interno)) :
    (l.map (enrichDesc f fd)).Pairwise (fun a b => a.id_interno ≠ b.id_interno) := by
  rw [List.pairwise_map]
  exact h.imp (fun hab => by simpa [enrichDesc_id] using hab)

theorem truncCap_nil (m : Option Nat) : truncCap m [] = [] := by
  cases m with
  | none => rfl
  | some k => simp [truncCap]

theorem truncCap_pairwise {R : ParsedItem → ParsedItem → Prop} (m : Option Nat)
    (l : List ParsedItem) (h : l.Pairwise R) : (truncCap m l).Pairwise R := by
  cases m with
  | none => exact h
  | some k =>
    by_cases hk : k = 0
    · simpa [truncCap, hk] using h
    · simp only [truncCap, if_pos hk]
      exact List.Pairwise.sublist (List.take_sublist _ _) h

/-- C1: across any number of pages of one tab, the final TabResult keeps
exactly the first occurrence (in fetch order) of each id — a later record
with a previously seen id is dropped and never replaces the first
occurrence — and hence contains no two items with the same id. -/
theorem c1_dedup_first_occurrence (initData : Option Json) (browse : String → Json)
    (tab : String) (m : Option Nat) (f : Bool) (fd : String → String) (fuel : Nat) :
    scrape_tabItems initData browse tab m f fd fuel
      = truncCap m ((firstOccur [] (scrape_tabTrace initData browse tab m f fd fuel)).map
          (enrichDesc f fd))
    ∧ (scrape_tabItems initData browse tab m f fd fuel).Pairwise
        (fun a b => a.id_interno ≠ b.id_interno) := by
  have h := scrape_tabCrawl_spec initData browse tab m f fd fuel
  constructor
  · unfold scrape_tabItems scrape_tabTrace
    rw [h]
  · unfold scrape_tabItems
    rw [h]
    exact truncCap_pairwise m _ (pairwise_ids_map_enrich f fd _ (firstOccur_pairwise _ _))

theorem crawlGo_capfull (pages : String → List ParsedItem × Option String)
    (f : Bool) (fd : String → String) (k : Nat) (hk : k ≠ 0)
    (fuel : Nat) (seen : List String) (items : List ParsedItem) (cont : Option String)
    (hlen : k ≤ items.length) :
    (crawlGo pages (some k) f fd fuel seen items cont).1 = items := by
  cases fuel with
  | zero => rfl
  | succ n =>
    cases cont with
    | none => rfl
    | some tok =>
      by_cases h1 : tok = ""
      · simp [crawlGo, h1]
      · have hc : capReached (some k) items.length := ⟨hk, hlen⟩
        simp [crawlGo, h1, hc]

theorem addPage_cap_take (f : Bool) (fd : String → String) (k : Nat) (hk : k ≠ 0)
    (pg : List ParsedItem) : ∀ (seen : List String) (items : List ParsedItem),
      items.length < k →
      (addPage (some k) f fd seen items pg = addPage none f fd seen items pg
        ∧ (addPage none f fd seen items pg).2.1.length < k)
      ∨ ((addPage (some k) f fd seen items pg).2.1
            = ((addPage none f fd seen items pg).2.1).take k
        ∧ k ≤ (addPage none f fd seen items pg).2.1.length) := by
  induction pg with
  | nil => intro seen items hlen; exact Or.inl ⟨rfl, by simpa [addPage] using hlen⟩
  | cons i rest ih =>
    intro seen items hlen
    by_cases h : i.id_interno ∈ seen
    · rcases ih seen items hlen with ⟨he, hl⟩ | ⟨ht, hge⟩
      · exact Or.inl ⟨by simp [addPage, h, he], by simpa [addPage, h] using hl⟩
      · exact Or.inr ⟨by simpa [addPage, h] using ht, by simpa [addPage, h] using hge⟩
    · by_cases hcap : capReached (some k) (items.length + 1)
      · refine Or.inr ?_
        have hcap2 : capReached (some k) ((items ++ [enrichDesc f fd i]).length) := by
          simpa using hcap
        have hklen : k = items.length + 1 := Nat.le_antisymm hcap.2 hlen
        have hmono := (addPage_spec none f fd rest (i.id_interno :: seen)
          (items ++ [enrichDesc f fd i])).2
        have hnone : ∀ n, ¬ capReached none n := fun _ hx => hx
        constructor
        · simp only [addPage, if_neg h, if_pos hcap2, if_neg (hnone _)]
          rw [hmono, List.take_append_of_le_length (by simp [hklen]),
            List.take_of_length_le (by simp [hklen])]
        · simp only [addPage, if_neg h, if_neg (hnone _)]
          rw [hmono]
          simp [hklen]
      · have hlen2 : (items ++ [enrichDesc f fd i]).length < k := by
          have : ¬ k ≤ items.length + 1 := fun hx => hcap ⟨hk, by simpa using hx⟩
          simpa using Nat.lt_of_not_le this
        have hnone : ¬ capReached none (items.length + 1) := fun hx => hx
        rcases ih (i.id_interno :: seen) (items ++ [enrichDesc f fd i])
            (by simpa using hlen2) with ⟨he, hl⟩ | ⟨ht, hge⟩
        · exact Or.inl ⟨by simp [addPage, h, hcap, hnone, he],
            by simpa [addPage, h, hnone] using hl⟩
        · exact Or.inr ⟨by simpa [addPage, h, hcap, hnone] using ht,
            by simpa [addPage, h, hnone] using hge⟩

theorem capReached_none (n : Nat) : ¬ capReached none n := fun hx => hx

theorem crawlGo_cap_take (pages : String → List ParsedItem × Option String)
    (f : Bool) (fd : String → String) (k : Nat) (hk : k ≠ 0) :
    ∀ (fuel : Nat) (seen : List String) (items : List ParsedItem) (cont : Option String),
      ((crawlGo pages (some k) f fd fuel seen items cont).1).take k
        = ((crawlGo pages none f fd fuel seen items cont).1).take k := by
  intro fuel
  induction fuel with
  | zero => intro seen items cont; rfl
  | succ n ih =>
    intro seen items cont
    cases cont with
    | none => rfl
    | some tok =>
      by_cases h1 : tok = ""
      · simp [crawlGo, h1]
      · by_cases hlen : k ≤ items.length
        · have hL := crawlGo_capfull pages f fd k hk (n + 1) seen items (some tok) hlen
          have hR := crawlGo_spec pages none f fd (n + 1) seen items (some tok)
          rw [hL, hR, List.take_append_of_le_length hlen]
        · have hcap : ¬ capReached (some k) items.length := fun hc => hlen hc.2
          by_cases h3 : (pages tok).1 = []
          · simp [crawlGo, h1, hcap, capReached_none, h3]
          · rcases addPage_cap_take f fd k hk (pages tok).1 seen items (Nat.lt_of_not_le hlen)
              with ⟨he, hl⟩ | ⟨ht, hge⟩
            · by_cases h4 : tokStops (pages tok).2 tok
              · simp [crawlGo, h1, hcap, capReached_none, h3, h4, he]
              · simp only [crawlGo, if_neg h1, if_neg hcap, if_neg (capReached_none _),
                  if_neg h3, if_neg h4, he]
                exact ih _ _ _
            · by_cases h4 : tokStops (pages tok).2 tok
              · simp [crawlGo, h1, hcap, capReached_none, h3, h4, ht, List.take_take]
              · have hlenL : k ≤ (addPage (some k) f fd seen items (pages tok).1).2.1.length := by
                  rw [ht]
                  simp only [List.length_take]
                  exact Nat.le_min.mpr ⟨Nat.le_refl k, hge⟩
                have hE := crawlGo_capfull pages f fd k hk n
                  (addPage (some k) f fd seen items (pages tok).1).1
                  (addPage (some k) f fd seen items (pages tok).1).2.1
                  (pages tok).2 hlenL
                have hRs := crawlGo_spec pages none f fd n
                  (addPage none f fd seen items (pages tok).1).1
                  (addPage none f fd seen items (pages tok).1).2.1
                  (pages tok).2
                simp only [crawlGo, if_neg h1, if_neg hcap, if_neg (capReached_none _),
                  if_neg h3, if_neg h4]
                rw [hE, hRs, List.take_append_of_le_length hge, ht, List.take_take]
                simp

/-- C2 (amended): for every cap k ≥ 1, the returned TabResult is exactly the
first k items of the uncapped discovery-order sequence (truncation, never
concatenation or duplication), and its length is at most k. -/
theorem c2_cap_truncation (k : Nat) (hk : 1 ≤ k) (initData : Option Json)
    (browse : String → Json) (tab : String) (f : Bool) (fd : String → String) (fuel : Nat) :
    scrape_tabItems initData browse tab (some k) f fd fuel
      = (scrape_tabItems initData browse tab none f fd fuel).take k
    ∧ (scrape_tabItems initData browse tab (some k) f fd fuel).length ≤ k := by
  have hk0 : k ≠ 0 := Nat.one_le_iff_ne_zero.mp hk
  have hmain : scrape_tabItems initData browse tab (some k) f fd fuel
      = (scrape_tabItems initData browse tab none f fd fuel).take k := by
    cases initData with
    | none => simp [scrape_tabItems, scrape_tabCrawl, truncCap, hk0]
    | some ini =>
      simp only [scrape_tabItems, scrape_tabCrawl, truncCap, if_pos hk0]
      exact crawlGo_cap_take _ f fd k hk0 fuel _ _ _
  exact ⟨hmain, by rw [hmain]; exact List.length_take_le k _⟩

/-- C2 counterexample: with cap k = 0 the truthiness guards
`if max_items and ...` and `if max_items:` (lines 224, 244, 249) treat the cap
as absent, so the returned TabResult has 1 item, not at most 0. -/
theorem c2_cap_zero_counterexample :
    (scrape_tabItems (some exC2zInit) (fun _ => Json.obj []) "videos" (some 0) false
      (fun _ => "") 1).length = 1
    ∧ ¬ ((scrape_tabItems (some exC2zInit) (fun _ => Json.obj []) "videos" (some 0) false
      (fun _ => "") 1).length ≤ 0) := by decide

/-- Witness for C2 at cap 2 over a three-record initial page. -/
theorem c2_cap_truncation_witness :
    1 ≤ 2
    ∧ (scrape_tabItems (some exC2init) (fun _ => Json.obj []) "videos" (some 2) false
        (fun _ => "") 1
      = (scrape_tabItems (some exC2init) (fun _ => Json.obj []) "videos" none false
        (fun _ => "") 1).take 2
    ∧ (scrape_tabItems (some exC2init) (fun _ => Json.obj []) "videos" (some 2) false
        (fun _ => "") 1).length ≤ 2) :=
  ⟨by decide, c2_cap_truncation 2 (by decide) (some exC2init) (fun _ => Json.obj [])
    "videos" false (fun _ => "") 1⟩

/-- C3: when the page extraction for the token just consumed returns that same
token, the `while` loop of `scrape_tab` stops within that iteration — any
amount of remaining fuel yields the same result as a single iteration, so the
crawl never loops forever on a non-advancing token. -/
theorem c3_nonadvancing_token_terminates
    (pages : String → List ParsedItem × Option String) (m : Option Nat) (f : Bool)
    (fd : String → String) (seen : List String) (items : List ParsedItem)
    (tok : String) (n : Nat) (h : (pages tok).2 = some tok) :
    crawlGo pages m f fd (n + 1) seen items (some tok)
      = crawlGo pages m f fd 1 seen items (some tok) := by
  have hstop : tokStops (pages tok).2 tok := Or.inr (Or.inr h)
  by_cases h1 : tok = ""
  · simp [crawlGo, h1]
  · by_cases h2 : capReached m items.length
    · simp [crawlGo, h1, h2]
    · by_cases h3 : (pages tok).1 = []
      · simp [crawlGo, h1, h2, h3]
      · simp [crawlGo, h1, h2, h3, hstop]

/-- Witness for C3 at a concrete one-record page function returning its own
token. -/
theorem c3_nonadvancing_token_terminates_witness :
    (pagesC3 "T").2 = some "T"
    ∧ crawlGo pagesC3 none false (fun _ => "") 4 [] [] (some "T")
      = crawlGo pagesC3 none false (fun _ => "") 1 [] [] (some "T") :=
  ⟨rfl, c3_nonadvancing_token_terminates pagesC3 none false (fun _ => "") [] [] "T" 3 rfl⟩

/-- C4: a record satisfying both the direct-field id condition (a `videoId`
key) and the click-command id condition (an `onTap` subtree carrying a truthy
id) resolves via the direct-field branch — its title/thumbnail extraction —
and the click-command extraction is never applied. -/
theorem c4_direct_precedence (data : Json) (s : Bool)
    (h1 : (jget data "videoId").isSome = true)
    (h2 : pyTruthy (clickIdOf data) = true) :
    parse_item data s = directStrategy data s := by
  simp [parse_item, h1]

/-- Witness for C4 at a record with both a `videoId` field and an `onTap`
watch endpoint. -/
theorem c4_direct_precedence_witness :
    ((jget exC4 "videoId").isSome = true ∧ pyTruthy (clickIdOf exC4) = true)
    ∧ parse_item exC4 false = directStrategy exC4 false :=
  ⟨by decide, c4_direct_precedence exC4 false (by decide) (by decide)⟩

theorem finishItem_thumbnail (s : Bool) (v : Option String) (t th d : String)
    (it : ParsedItem) (h : finishItem s v t th d = some it) : it.thumbnail = th := by
  cases v with
  | none => simp [finishItem] at h
  | some vid =>
    by_cases hv : vid = ""
    · simp [finishItem, hv] at h
    · simp only [finishItem, if_neg hv, Option.some.injEq] at h
      subst h
      rfl

/-- C5: over one record shape holding a non-empty `thumbnail.thumbnails`
list, the direct-field strategy selects the last entry's url as the item's
thumbnail while the navigation-endpoint strategy selects the first entry's
url. -/
theorem c5_thumbnail_order (data tj lastT headT : Json) (ts : List Json)
    (h1 : jget data "thumbnail" = some tj)
    (h2 : jget tj "thumbnails" = some (Json.arr ts))
    (h3 : ts.getLast? = some lastT)
    (h4 : ts.head? = some headT) :
    (∀ it s, directStrategy data s = some it →
        it.thumbnail = jstr ((jget lastT "url").getD (Json.str "")))
    ∧ (∀ it s, navStrategy data s = some it →
        it.thumbnail = jstr ((jget headT "url").getD (Json.str ""))) := by
  have hdt : directThumb data = jstr ((jget lastT "url").getD (Json.str "")) := by
    simp [directThumb, h1, h2, lastThumbUrl, h3]
  have hnt : navThumb data = jstr ((jget headT "url").getD (Json.str "")) := by
    simp [navThumb, h1, h2, headThumbUrl, h4]
  constructor
  · intro it s h
    unfold directStrategy at h
    rw [← hdt]
    exact finishItem_thumbnail _ _ _ _ _ _ h
  · intro it s h
    unfold navStrategy at h
    cases hnav : jget data "navigationEndpoint" with
    | none => simp [hnav] at h
    | some nav =>
      simp only [hnav] at h
      cases hrwe : jget nav "reelWatchEndpoint" with
      | none => simp [hrwe] at h
      | some rwe =>
        simp only [hrwe] at h
        rw [← hnt]
        exact finishItem_thumbnail _ _ _ _ _ _ h

/-- Witness for C5 at a record with a 3-element thumbnails list: the direct
strategy yields the last url, the navigation strategy the first. -/
theorem c5_thumbnail_order_witness :
    (directStrategy exC5 false ≠ none ∧ navStrategy exC5 false ≠ none)
    ∧ (∀ it s, directStrategy exC5 s = some it → it.thumbnail = "u3")
    ∧ (∀ it s, navStrategy exC5 s = some it → it.thumbnail = "u1") := by
  have hc5 := c5_thumbnail_order exC5
    (Json.obj [("thumbnails", Json.arr
      [Json.obj [("url", Json.str "u1")], Json.obj [("url", Json.str "u2")],
       Json.obj [("url", Json.str "u3")]])])
    (Json.obj [("url", Json.str "u3")]) (Json.obj [("url", Json.str "u1")])
    [Json.obj [("url", Json.str "u1")], Json.obj [("url", Json.str "u2")],
     Json.obj [("url", Json.str "u3")]] rfl rfl rfl rfl
  exact ⟨⟨by decide, by decide⟩,
    fun it s h => (hc5.1 it s h).trans rfl,
    fun it s h => (hc5.2 it s h).trans rfl⟩

/-- C6 counterexample: on a node carrying both `runs` and `content`, the
source (`_pick_text`, lines 58-63) checks `content` before `runs` and returns
the content value, while the claim's order (plain-string, then runs, then
content) would return the runs concatenation. -/
theorem c6_order_counterexample :
    pick_text exC6 = "b" ∧ pickTextSpecOrder exC6 = "a"
    ∧ pick_text exC6 ≠ pickTextSpecOrder exC6 := by decide

/-- C6 (amended): the Text Resolver checks encodings in the fixed order
plain-string field, then generic content field, then runs-array concatenation
(so a plain-string match is authoritative when several encodings are present),
and every node that is not text-bearing yields the empty string. -/
theorem c6_pick_text_order :
    (∀ (fs : List (String × Json)) v, lookupField fs "simpleText" = some v →
      pick_text (Json.obj fs) = jstr v)
    ∧ (∀ (fs : List (String × Json)) v, lookupField fs "simpleText" = none →
      lookupField fs "content" = some v → pick_text (Json.obj fs) = jstr v)
    ∧ (∀ (fs : List (String × Json)) (rs : List Json), lookupField fs "simpleText" = none →
      lookupField fs "content" = none → lookupField fs "runs" = some (Json.arr rs) →
      pick_text (Json.obj fs) = String.join (rs.map runText))
    ∧ (∀ (fs : List (String × Json)), lookupField fs "simpleText" = none →
      lookupField fs "content" = none → lookupField fs "runs" = none →
      pick_text (Json.obj fs) = "")
    ∧ (∀ s, pick_text (Json.str s) = "")
    ∧ (∀ xs, pick_text (Json.arr xs) = "")
    ∧ pick_text Json.null = "" := by
  refine ⟨?_, ?_, ?_, ?_, fun s => rfl, fun xs => rfl, rfl⟩
  · intro fs v h
    simp [pick_text, h]
  · intro fs v h1 h2
    simp [pick_text, h1, h2]
  · intro fs rs h1 h2 h3
    simp [pick_text, h1, h2, h3]
  · intro fs h1 h2 h3
    simp [pick_text, h1, h2, h3]

/-- Witness for C6 on concrete nodes of each encoding. -/
theorem c6_pick_text_order_witness :
    pick_text (Json.obj [("simpleText", Json.str "s"), ("content", Json.str "c")]) = "s"
    ∧ pick_text (Json.obj [("content", Json.str "c"), ("runs", Json.arr [])]) = "c"
    ∧ pick_text (Json.obj [("runs", Json.arr [Json.obj [("text", Json.str "r1")],
        Json.obj [("text", Json.str "r2")]])]) = "r1r2"
    ∧ pick_text (Json.obj [("other", Json.str "x")]) = "" := by
  refine ⟨c6_pick_text_order.1 [("simpleText", Json.str "s"), ("content", Json.str "c")]
      (Json.str "s") rfl,
    c6_pick_text_order.2.1 [("content", Json.str "c"), ("runs", Json.arr [])]
      (Json.str "c") rfl rfl, ?_,
    c6_pick_text_order.2.2.2.1 [("other", Json.str "x")] rfl rfl rfl⟩
  rw [c6_pick_text_order.2.2.1 [("runs", Json.arr [Json.obj [("text", Json.str "r1")],
    Json.obj [("text", Json.str "r2")]])] [Json.obj [("text", Json.str "r1")],
    Json.obj [("text", Json.str "r2")]] rfl rfl rfl]
  rfl

theorem findTokenCIR_eq_find : ∀ l, findTokenCIR l =
    (match l.find? cirHit with
     | some kv => cirToken kv.2
     | none => none) := by
  intro l
  induction l with
  | nil => rfl
  | cons kv rest ih =>
    obtain ⟨k, v⟩ := kv
    by_cases hk : k = "continuationItemRenderer"
    · subst hk
      cases hc : cirToken v with
      | none =>
        have hhit : cirHit ("continuationItemRenderer", v) = false := by
          simp [cirHit, hc, pyTruthy]
        simp [findTokenCIR, hc, List.find?_cons, hhit, ih]
      | some t =>
        by_cases ht : t = ""
        · subst ht
          have hhit : cirHit ("continuationItemRenderer", v) = false := by
            simp [cirHit, hc, pyTruthy]
          simp [findTokenCIR, hc, List.find?_cons, hhit, ih]
        · have hhit : cirHit ("continuationItemRenderer", v) = true := by
            simp [cirHit, hc, pyTruthy, ht]
          simp [findTokenCIR, hc, ht, List.find?_cons, hhit]
    · have hhit : cirHit (k, v) = false := by simp [cirHit, hk]
      simp [findTokenCIR, hk, List.find?_cons, hhit, ih]

theorem findTokenCC_eq_find : ∀ l, findTokenCC l =
    ((l.find? ccHit).bind (fun kv => (jget kv.2 "token").map jstr)) := by
  intro l
  induction l with
  | nil => rfl
  | cons kv rest ih =>
    obtain ⟨k, v⟩ := kv
    by_cases hcc : ccHit (k, v) = true
    · have hcc2 := hcc
      unfold ccHit at hcc2
      simp [findTokenCC, List.find?_cons, hcc, hcc2]
    · have hcc2 : ccHit (k, v) = false := by
        cases hb : ccHit (k, v) with
        | true => exact absurd hb hcc
        | false => rfl
      have hcond := hcc2
      unfold ccHit at hcond
      simp [findTokenCC, List.find?_cons, hcc2, hcond, ih]

/-- C7: the Page Extractor's token discovery uses the first (in scan order)
continuation-item placeholder pair of the walk that carries a truthy token;
only when no such pair exists does it fall back to the first bare
continuation-command pair carrying a truthy token. -/
theorem c7_token_preference (data : Json) (is_short_tab : Bool) :
    (extract_from_data data is_short_tab).2 =
      (match (walk data).find? cirHit with
       | some kv => cirToken kv.2
       | none => ((walk data).find? ccHit).bind
           (fun kv => (jget kv.2 "token").map jstr)) := by
  show extractContinuation data = _
  unfold extractContinuation
  rw [findTokenCIR_eq_find, findTokenCC_eq_find]
  cases h : (walk data).find? cirHit with
  | none => simp
  | some kv =>
    have hhit := List.find?_some h
    have htr : pyTruthy (cirToken kv.2) = true := by
      simp [cirHit] at hhit
      exact hhit.2
    cases hc : cirToken kv.2 with
    | none => rw [hc] at htr; exact absurd htr (by simp [pyTruthy])
    | some t => simp [hc]

/-- C8 counterexample: a serialized item's field list is
url/title/description/thumbnail — there is no `thumbnailUrl` field and no
`viewCount` field, contrary to the claimed field set; the internal raw id is
indeed absent. -/
theorem c8_fields_counterexample :
    scrape_tab (some exC8init) (fun _ => Json.obj []) "videos" none false (fun _ => "") 1
      = [[("url", "https://www.youtube.com/watch?v=a"), ("title", ""),
          ("description", ""), ("thumbnail", "")]]
    ∧ ∀ d ∈ scrape_tab (some exC8init) (fun _ => Json.obj []) "videos" none false
        (fun _ => "") 1,
      ¬ "thumbnailUrl" ∈ d.map Prod.fst ∧ ¬ "viewCount" ∈ d.map Prod.fst
        ∧ ¬ "id_interno" ∈ d.map Prod.fst := by decide

/-- C8 (amended): every item in the serialized result exposes exactly the
fields url, title, description, thumbnail (in that order) and never the
internal `id_interno`. -/
theorem c8_public_fields (initData : Option Json) (browse : String → Json)
    (tab : String) (m : Option Nat) (f : Bool) (fd : String → String) (fuel : Nat)
    (d : List (String × String))
    (hd : d ∈ scrape_tab initData browse tab m f fd fuel) :
    d.map Prod.fst = ["url", "title", "description", "thumbnail"]
    ∧ ¬ "id_interno" ∈ d.map Prod.fst := by
  unfold scrape_tab at hd
  obtain ⟨i, hi, rfl⟩ := List.mem_map.mp hd
  have hkeys : (publicDict i).map Prod.fst
      = ["url", "title", "description", "thumbnail"] := rfl
  exact ⟨hkeys, by rw [hkeys]; decide⟩

/-- Witness for C8 on the item produced from a one-record payload. -/
theorem c8_public_fields_witness :
    ([("url", "https://www.youtube.com/watch?v=a"), ("title", ""), ("description", ""),
      ("thumbnail", "")] : List (String × String)).map Prod.fst
      = ["url", "title", "description", "thumbnail"]
    ∧ ¬ "id_interno" ∈ ([("url", "https://www.youtube.com/watch?v=a"), ("title", ""),
      ("description", ""), ("thumbnail", "")] : List (String × String)).map Prod.fst :=
  c8_public_fields (some exC8init) (fun _ => Json.obj []) "videos" none false (fun _ => "") 1
    [("url", "https://www.youtube.com/watch?v=a"), ("title", ""), ("description", ""),
      ("thumbnail", "")] (by decide)

/-- C9 counterexample: the first tab's initial page is unparsable, yet the
request succeeds as a whole — `scrape_tab` returns `[]` for that tab (the
except of lines 200-202) and the other tabs are unaffected; no hard failure
exists for the first tab. -/
theorem c9_first_tab_counterexample :
    scrape_channel envC9 "https://www.youtube.com/@chan?si=x" none none none false 1
      = { channel := "https://www.youtube.com/@chan", total_videos := 0, total_lives := 1,
          total_shorts := 1, videos := [],
          lives := [[("url", "https://www.youtube.com/watch?v=L"), ("title", ""),
            ("description", ""), ("thumbnail", "")]],
          shorts := [[("url", "https://www.youtube.com/shorts/S"), ("title", ""),
            ("description", ""), ("thumbnail", "")]] } := by decide

theorem scrape_tab_init_none (browse : String → Json) (tab : String)
    (m : Option Nat) (f : Bool) (fd : String → String) (fuel : Nat) :
    scrape_tab none browse tab m f fd fuel = [] := by
  simp [scrape_tab, scrape_tabItems, scrape_tabCrawl, truncCap_nil]

/-- C9 (amended): whenever a tab's initial page cannot be parsed — whichever
tab it is: the first one fetched (videos), lives, or shorts — that tab
degrades to an empty TabResult, the request still succeeds, and the other two
tabs' results are unaffected. -/
theorem c9_tab_isolation :
    (∀ (envA envB : ChannelEnv) (url : String) (mv ml ms : Option Nat) (f : Bool) (fuel : Nat),
      envA.videos.initData = none →
      envA.lives = envB.lives → envA.shorts = envB.shorts → envA.fetchDesc = envB.fetchDesc →
      (scrape_channel envA url mv ml ms f fuel).videos = []
      ∧ (scrape_channel envA url mv ml ms f fuel).total_videos = 0
      ∧ (scrape_channel envA url mv ml ms f fuel).lives
        = (scrape_channel envB url mv ml ms f fuel).lives
      ∧ (scrape_channel envA url mv ml ms f fuel).shorts
        = (scrape_channel envB url mv ml ms f fuel).shorts
      ∧ (scrape_channel envA url mv ml ms f fuel).total_lives
        = (scrape_channel envB url mv ml ms f fuel).total_lives
      ∧ (scrape_channel envA url mv ml ms f fuel).total_shorts
        = (scrape_channel envB url mv ml ms f fuel).total_shorts)
    ∧ (∀ (envA envB : ChannelEnv) (url : String) (mv ml ms : Option Nat) (f : Bool) (fuel : Nat),
      envA.lives.initData = none →
      envA.videos = envB.videos → envA.shorts = envB.shorts → envA.fetchDesc = envB.fetchDesc →
      (scrape_channel envA url mv ml ms f fuel).lives = []
      ∧ (scrape_channel envA url mv ml ms f fuel).total_lives = 0
      ∧ (scrape_channel envA url mv ml ms f fuel).videos
        = (scrape_channel envB url mv ml ms f fuel).videos
      ∧ (scrape_channel envA url mv ml ms f fuel).shorts
        = (scrape_channel envB url mv ml ms f fuel).shorts
      ∧ (scrape_channel envA url mv ml ms f fuel).total_videos
        = (scrape_channel envB url mv ml ms f fuel).total_videos
      ∧ (scrape_channel envA url mv ml ms f fuel).total_shorts
        = (scrape_channel envB url mv ml ms f fuel).total_shorts)
    ∧ (∀ (envA envB : ChannelEnv) (url : String) (mv ml ms : Option Nat) (f : Bool) (fuel : Nat),
      envA.shorts.initData = none →
      envA.videos = envB.videos → envA.lives = envB.lives → envA.fetchDesc = envB.fetchDesc →
      (scrape_channel envA url mv ml ms f fuel).shorts = []
      ∧ (scrape_channel envA url mv ml ms f fuel).total_shorts = 0
      ∧ (scrape_channel envA url mv ml ms f fuel).videos
        = (scrape_channel envB url mv ml ms f fuel).videos
      ∧ (scrape_channel envA url mv ml ms f fuel).lives
        = (scrape_channel envB url mv ml ms f fuel).lives
      ∧ (scrape_channel envA url mv ml ms f fuel).total_videos
        = (scrape_channel envB url mv ml ms f fuel).total_videos
      ∧ (scrape_channel envA url mv ml ms f fuel).total_lives
        = (scrape_channel envB url mv ml ms f fuel).total_lives) := by
  refine ⟨?_, ?_, ?_⟩
  · intro envA envB url mv ml ms f fuel hv hl hs hfd
    have hempty : scrape_tab envA.videos.initData envA.videos.browse "videos" mv f
        envB.fetchDesc fuel = [] := by
      rw [hv]; exact scrape_tab_init_none _ _ _ _ _ _
    simp [scrape_channel, hfd, hempty, hl, hs]
  · intro envA envB url mv ml ms f fuel hl hv hs hfd
    have hempty : scrape_tab envA.lives.initData envA.lives.browse "lives" ml f
        envB.fetchDesc fuel = [] := by
      rw [hl]; exact scrape_tab_init_none _ _ _ _ _ _
    simp [scrape_channel, hfd, hempty, hv, hs]
  · intro envA envB url mv ml ms f fuel hs hv hl hfd
    have hempty : scrape_tab envA.shorts.initData envA.shorts.browse "shorts" ms f
        envB.fetchDesc fuel = [] := by
      rw [hs]; exact scrape_tab_init_none _ _ _ _ _ _
    simp [scrape_channel, hfd, hempty, hv, hl]

/-- Witness for C9: `envC9` (videos unparsable), `envC9L` (lives unparsable)
and `envC9S` (shorts unparsable), each against `envC9b` (all tabs parsable,
otherwise identical). -/
theorem c9_tab_isolation_witness :
    ((scrape_channel envC9 "https://www.youtube.com/@chan" none none none false 1).videos = []
      ∧ (scrape_channel envC9 "https://www.youtube.com/@chan" none none none false 1).lives
        = (scrape_channel envC9b "https://www.youtube.com/@chan" none none none false 1).lives)
    ∧ ((scrape_channel envC9L "https://www.youtube.com/@chan" none none none false 1).lives = []
      ∧ (scrape_channel envC9L "https://www.youtube.com/@chan" none none none false 1).videos
        = (scrape_channel envC9b "https://www.youtube.com/@chan" none none none false 1).videos)
    ∧ ((scrape_channel envC9S "https://www.youtube.com/@chan" none none none false 1).shorts = []
      ∧ (scrape_channel envC9S "https://www.youtube.com/@chan" none none none false 1).videos
        = (scrape_channel envC9b "https://www.youtube.com/@chan" none none none false 1).videos) :=
  ⟨⟨(c9_tab_isolation.1 envC9 envC9b "https://www.youtube.com/@chan" none none none false 1
      rfl rfl rfl rfl).1,
    (c9_tab_isolation.1 envC9 envC9b "https://www.youtube.com/@chan" none none none false 1
      rfl rfl rfl rfl).2.2.1⟩,
   ⟨(c9_tab_isolation.2.1 envC9L envC9b "https://www.youtube.com/@chan" none none none false 1
      rfl rfl rfl rfl).1,
    (c9_tab_isolation.2.1 envC9L envC9b "https://www.youtube.com/@chan" none none none false 1
      rfl rfl rfl rfl).2.2.1⟩,
   ⟨(c9_tab_isolation.2.2 envC9S envC9b "https://www.youtube.com/@chan" none none none false 1
      rfl rfl rfl rfl).1,
    (c9_tab_isolation.2.2 envC9S envC9b "https://www.youtube.com/@chan" none none none false 1
      rfl rfl rfl rfl).2.2.1⟩⟩

/-- C10 counterexample: a record carrying a direct `videoId` together with a
fruitless `onTap` subtree and a resolvable navigation endpoint is not mapped
to None — the direct branch fires — so the claim's quantification over every
record with a fruitless `onTap` fails. -/
theorem c10_strategy_by_presence_counterexample :
    (jget exC10 "onTap").isSome = true
    ∧ clickIdOf exC10 = none
    ∧ navStrategy exC10 false ≠ none
    ∧ parse_item exC10 false ≠ none := by decide

/-- C10 (amended): for every record without a direct `videoId` field whose
`onTap` subtree yields no truthy watch-type or reel-type endpoint id, the
normalizer returns None without attempting the navigation-endpoint strategy,
even when the record also contains a navigation endpoint carrying a
resolvable id. -/
theorem c10_key_presence (data : Json) (s : Bool)
    (h1 : (jget data "videoId").isSome = false)
    (h2 : (jget data "onTap").isSome = true)
    (h3 : pyTruthy (clickIdOf data) = false) :
    parse_item data s = none := by
  simp [parse_item, h1, h2, clickStrategy, h3]

/-- Witness for C10 at a record with a fruitless `onTap` and a resolvable
navigation endpoint. -/
theorem c10_key_presence_witness :
    ((jget exC10w "videoId").isSome = false ∧ (jget exC10w "onTap").isSome = true
      ∧ pyTruthy (clickIdOf exC10w) = false ∧ navStrategy exC10w false ≠ none)
    ∧ parse_item exC10w false = none :=
  ⟨by decide, c10_key_presence exC10w false (by decide) (by decide) (by decide)⟩
